import Mathlib

/-!
Verification of the confirmation/approval subsystem of the Agente-IA-correo
repository (files `app/telegram/confirmation_handler.py`,
`app/telegram/bot_server.py`, `app/telegram/telegram_sender.py`).

The Python code keeps pending confirmations in an in-process `dict` keyed by
an 8-character id, resolves them from a Telegram polling loop, and expires
them after a fixed timeout.  We embed the store as an association list
(Python dicts have unique keys and preserve insertion order), wall-clock
times as naturals, callbacks as optional Lean functions returning
`Except String ρ` (an exception is modelled as `Except.error msg`, matching
`except Exception as e: ... str(e)`), and the Python result dicts as the
tagged type `HResult`.
-/

namespace EmailAgent

/-- First-match lookup in an association list, i.e. `d[k]` / `k in d` on a
Python dict (whose keys are unique). -/
def dictLookup {α : Type} : List (String × α) → String → Option α
  | [], _ => none
  | q :: rest, k => if q.1 = k then some q.2 else dictLookup rest k

/-- Python dict assignment `d[k] = v`: replaces the value in place if the key
is present (keeping its position), otherwise appends the new binding. -/
def dictSet {α : Type} : List (String × α) → String → α → List (String × α)
  | [], k, v => [(k, v)]
  | q :: rest, k, v => if q.1 = k then (k, v) :: rest else q :: dictSet rest k v

/-- Python `d.pop(k)` / `del d[k]`: removes every binding of the key (on a
unique-key list this is exactly removal of the single binding). -/
def dictDel {α : Type} : List (String × α) → String → List (String × α)
  | [], _ => []
  | q :: rest, k => if q.1 = k then dictDel rest k else q :: dictDel rest k

/-- The keys of the store, in insertion order. -/
def dictKeys {α : Type} (l : List (String × α)) : List String :=
  l.map Prod.fst

/-- Which resume callback a `handle_response` call invoked. -/
inductive CBKind where
  | confirm
  | cancel
deriving DecidableEq, Repr

/-- One pending confirmation, the value stored under a confirmation id:
`{"message": ..., "data": ..., "on_confirm": ..., "on_cancel": ...,
"timestamp": ...}`.  `δ` is the type of the opaque `data` payload, `ρ` the
type of a callback's successful result. -/
structure Entry (δ ρ : Type) where
  message : String
  data : δ
  on_confirm : Option (δ → Except String ρ)
  on_cancel : Option (δ → Except String ρ)
  timestamp : Nat

/-- State of `ConfirmationHandler`: the `pending_confirmations` dict and the
`timeout_seconds` field. -/
structure ConfirmationHandler (δ ρ : Type) where
  pending_confirmations : List (String × Entry δ ρ)
  timeout_seconds : Nat

/-- The state built by `ConfirmationHandler.__init__`: empty store, 300 s
timeout (5 minutes). -/
def initialHandler {δ ρ : Type} : ConfirmationHandler δ ρ :=
  { pending_confirmations := [], timeout_seconds := 300 }

/-- Embedding of `ConfirmationHandler.create_confirmation`.  The Python code
draws `confirmation_id = str(uuid.uuid4())[:8]` from the environment; here the
freshly generated id and the current `time.time()` are explicit parameters.
Returns the updated state together with the returned `confirmation_id`. -/
def create_confirmation {δ ρ : Type} (h : ConfirmationHandler δ ρ)
    (confirmation_id : String) (now : Nat) (message : String) (data : δ)
    (on_confirm : Option (δ → Except String ρ))
    (on_cancel : Option (δ → Except String ρ)) :
    ConfirmationHandler δ ρ × String :=
  ({ h with
      pending_confirmations := dictSet h.pending_confirmations confirmation_id
        { message := message, data := data, on_confirm := on_confirm,
          on_cancel := on_cancel, timestamp := now } },
   confirmation_id)

/-- The dictionaries `handle_response` can return, as a tagged type:
`errorNotFound` is `{"error": "Confirmación no encontrada o expirada"}`,
`errorExpired` is `{"error": "Confirmación expirada"}`,
`errorCallback e` is `{"error": str(e)}`,
`success r` is `{"success": True, "result": r}`,
`successCancelled r` is `{"success": True, "result": r, "cancelled": True}`,
`successNoCallback c` is `{"success": True, "cancelled": c}`. -/
inductive HResult (ρ : Type) where
  | errorNotFound
  | errorExpired
  | errorCallback (msg : String)
  | success (result : ρ)
  | successCancelled (result : ρ)
  | successNoCallback (cancelled : Bool)

/-- The value under the `"error"` key of the returned dict, if any. -/
def HResult.errorMsg {ρ : Type} : HResult ρ → Option String
  | .errorNotFound => some "Confirmación no encontrada o expirada"
  | .errorExpired => some "Confirmación expirada"
  | .errorCallback msg => some msg
  | _ => none

/-- Embedding of `ConfirmationHandler.handle_response`.  Returns the result
dict, the new state, and the list of resume callbacks that were invoked
(the Python code has no such return value; it is the observable trace of
callback call sites, `conf["on_confirm"](conf["data"])` and
`conf["on_cancel"](conf["data"])`).  The entry is popped before the age
check; a callback exception is caught and surfaced as `{"error": str(e)}`. -/
def handle_response {δ ρ : Type} (h : ConfirmationHandler δ ρ) (now : Nat)
    (confirmation_id : String) (confirmed : Bool) :
    HResult ρ × ConfirmationHandler δ ρ × List CBKind :=
  match dictLookup h.pending_confirmations confirmation_id with
  | none => (.errorNotFound, h, [])
  | some conf =>
    let h' : ConfirmationHandler δ ρ :=
      { h with pending_confirmations := dictDel h.pending_confirmations confirmation_id }
    if now - conf.timestamp > h.timeout_seconds then
      (.errorExpired, h', [])
    else if confirmed then
      match conf.on_confirm with
      | some f =>
        match f conf.data with
        | .ok r => (.success r, h', [.confirm])
        | .error e => (.errorCallback e, h', [.confirm])
      | none => (.successNoCallback false, h', [])
    else
      match conf.on_cancel with
      | some f =>
        match f conf.data with
        | .ok r => (.successCancelled r, h', [.cancel])
        | .error e => (.errorCallback e, h', [.cancel])
      | none => (.successNoCallback true, h', [])

/-- Embedding of `ConfirmationHandler.cleanup_expired`: collect the ids whose
age strictly exceeds the timeout, then delete each of them.  Returns the new
state and the (empty) list of callbacks invoked — the Python body contains no
callback call site. -/
def cleanup_expired {δ ρ : Type} (h : ConfirmationHandler δ ρ) (now : Nat) :
    ConfirmationHandler δ ρ × List CBKind :=
  let expired := (h.pending_confirmations.filter
    (fun p => decide (now - p.2.timestamp > h.timeout_seconds))).map Prod.fst
  ({ h with pending_confirmations :=
      expired.foldl (fun s cid => dictDel s cid) h.pending_confirmations },
   [])

/-! ### String primitives used by the dispatch code

Python `str.startswith(pat)` and `str.replace(pat, "")` (which removes every
non-overlapping occurrence of `pat`, scanning left to right). -/

/-- Python `s.replace(pat, "")` on character lists: scan left to right and
drop every non-overlapping occurrence of the (non-empty) pattern.  The first
argument is recursion fuel; one unit is spent per character of the scanned
list, so any fuel of at least the list's length gives the untruncated
scan (`replaceAll` below passes exactly the length). -/
def replaceAllAux (pat : List Char) : Nat → List Char → List Char
  | 0, l => l
  | _ + 1, [] => []
  | fuel + 1, c :: rest =>
    if pat.isPrefixOf (c :: rest) && !pat.isEmpty then
      replaceAllAux pat fuel (rest.drop (pat.length - 1))
    else
      c :: replaceAllAux pat fuel rest

/-- Python `s.replace(pat, "")` on character lists. -/
def replaceAll (pat l : List Char) : List Char :=
  replaceAllAux pat l.length l

/-- Whether `pat` occurs as a contiguous substring (Python `pat in s`). -/
def hasSubstr (pat : List Char) : List Char → Bool
  | [] => pat.isEmpty
  | c :: rest => pat.isPrefixOf (c :: rest) || hasSubstr pat rest

/-- Python `s.startswith(pre)`. -/
def startsWithS (s pre : String) : Bool :=
  pre.toList.isPrefixOf s.toList

/-- The id the dispatcher extracts: `callback_data.replace(pre, "")`. -/
def extract_id (s pre : String) : String :=
  ⟨replaceAll pre.toList s.toList⟩

/-! ### Telegram sender (`telegram_sender.py`) -/

/-- The `inline_keyboard` row built by `TelegramSender.send_confirmation_message`:
each button as a `(text, callback_data)` pair. -/
def send_confirmation_message_keyboard (confirmation_id : String) :
    List (String × String) :=
  [("✅ Sí, corregir", "confirm_" ++ confirmation_id),
   ("❌ No, dejar así", "cancel_" ++ confirmation_id)]

/-! ### Telegram bot server (`bot_server.py`) -/

/-- The mutable flags of `TelegramBotServer` relevant to start/stop and the
update cursor. -/
structure TelegramBotServer where
  last_update_id : Nat
  running : Bool

/-- `TelegramBotServer.__init__`: cursor 0, not running. -/
def initialServer : TelegramBotServer :=
  { last_update_id := 0, running := false }

/-- `TelegramBotServer.start_polling`: a no-op if already running, otherwise
sets the running flag and spawns the polling thread.  The boolean records
whether a thread was started. -/
def start_polling (s : TelegramBotServer) : TelegramBotServer × Bool :=
  if s.running then (s, false)
  else ({ s with running := true }, true)

/-- `TelegramBotServer.stop_polling`: clears the running flag. -/
def stop_polling (s : TelegramBotServer) : TelegramBotServer :=
  { s with running := false }

/-- The `"callback_query"` value's `"data"` field as delivered by the wire:
it may be absent (`.get("data", "")` yields `""`), may fail to be a string
(`.startswith` then raises `AttributeError`), or is a string. -/
inductive CQData where
  | missing
  | notAString
  | val (s : String)

/-- The `"callback_query"` value: a non-dict (on which `.get` raises
`AttributeError`) or a dict carrying the `"data"` field. -/
inductive CallbackQueryField where
  | notADict
  | dict (data : CQData)

/-- One element of the `getUpdates` result that `_handle_update` and the
cursor-advance line consume: the `"update_id"` key (absent ⇒ `KeyError`
when `_poll_once` reads `update["update_id"]`) and the optional
`"callback_query"` key. -/
structure Update where
  update_id : Option Nat
  callback_query : Option CallbackQueryField

/-- The body of `_handle_update` past the `callback.get("data", "")` line:
prefix dispatch on the callback data.  Returns the confirmation-handler
state after the dispatched `handle_response` call, the list of
`(confirmation_id, confirmed)` pairs passed to `handle_response`, and the
callbacks invoked.  Everything `_handle_confirmation` does after its
`handle_response` call is outbound HTTP wrapped in `try/except`, which
cannot alter this state. -/
def dispatch_callback_data {δ ρ : Type} (st : ConfirmationHandler δ ρ)
    (now : Nat) (callback_data : String) :
    ConfirmationHandler δ ρ × List (String × Bool) × List CBKind :=
  if startsWithS callback_data "confirm_" then
    let confirmation_id := extract_id callback_data "confirm_"
    let res := handle_response st now confirmation_id true
    (res.2.1, [(confirmation_id, true)], res.2.2)
  else if startsWithS callback_data "cancel_" then
    let confirmation_id := extract_id callback_data "cancel_"
    let res := handle_response st now confirmation_id false
    (res.2.1, [(confirmation_id, false)], res.2.2)
  else
    (st, [], [])

/-- Embedding of `TelegramBotServer._handle_update`.  A raised exception
(`AttributeError` from `.get` on a non-dict, or from `.startswith` on a
non-string) is modelled as `Except.error`; it propagates to the caller. -/
def handle_update {δ ρ : Type} (st : ConfirmationHandler δ ρ) (now : Nat)
    (u : Update) :
    Except String (ConfirmationHandler δ ρ × List (String × Bool) × List CBKind) :=
  match u.callback_query with
  | none => .ok (st, [], [])
  | some .notADict => .error "AttributeError"
  | some (.dict .notAString) => .error "AttributeError"
  | some (.dict .missing) => .ok (dispatch_callback_data st now "")
  | some (.dict (.val s)) => .ok (dispatch_callback_data st now s)

/-- Whether `_handle_update` raises on this update, independently of the
store state. -/
def update_fails (u : Update) : Bool :=
  match u.callback_query with
  | some .notADict => true
  | some (.dict .notAString) => true
  | _ => false

/-- The `for update in updates:` loop of `TelegramBotServer._poll_once`:
handle each update, then advance `last_update_id` to `update["update_id"]`.
Any exception — from `_handle_update`, or the `KeyError` when `update_id` is
missing — propagates to `_poll_once`'s `try/except`, which logs it and
abandons the rest of the batch; state changes made before the raise are
kept.  Arguments accumulate the handler state, the cursor, the
`handle_response` calls made, and the callbacks invoked. -/
def process_updates {δ ρ : Type} (now : Nat) :
    ConfirmationHandler δ ρ → Nat → List (String × Bool) → List CBKind →
    List Update →
    ConfirmationHandler δ ρ × Nat × List (String × Bool) × List CBKind
  | st, cur, calls, invs, [] => (st, cur, calls, invs)
  | st, cur, calls, invs, u :: rest =>
    match handle_update st now u with
    | .error _ => (st, cur, calls, invs)
    | .ok (st', cs, is) =>
      match u.update_id with
      | none => (st', cur, calls ++ cs, invs ++ is)
      | some uid => process_updates now st' uid (calls ++ cs) (invs ++ is) rest

/-! ### Reachable states of the confirmation store

The store is mutated from two schedules (worker loop and poller); the
reachable states are those produced by any interleaving of the three
operations, each stamped with the `time.time()` value it observes. -/

/-- One store operation together with the clock value it reads. -/
inductive Step (δ ρ : Type) where
  | create (id : String) (now : Nat) (message : String) (data : δ)
      (on_confirm on_cancel : Option (δ → Except String ρ))
  | respond (id : String) (now : Nat) (confirmed : Bool)
  | cleanup (now : Nat)

/-- The clock value a step observes. -/
def stepTime {δ ρ : Type} : Step δ ρ → Nat
  | .create _ now _ _ _ _ => now
  | .respond _ now _ => now
  | .cleanup now => now

/-- Whether the step is a `create_confirmation` for the given id. -/
def isCreateOf {δ ρ : Type} : Step δ ρ → String → Bool
  | .create cid _ _ _ _ _, id => cid = id
  | _, _ => false

/-- Apply one operation to the handler state. -/
def applyStep {δ ρ : Type} (h : ConfirmationHandler δ ρ) :
    Step δ ρ → ConfirmationHandler δ ρ
  | .create id now msg d oc ocan => (create_confirmation h id now msg d oc ocan).1
  | .respond id now c => (handle_response h now id c).2.1
  | .cleanup now => (cleanup_expired h now).1

/-- Run a sequence of operations from a state. -/
def runSteps {δ ρ : Type} (h : ConfirmationHandler δ ρ)
    (steps : List (Step δ ρ)) : ConfirmationHandler δ ρ :=
  steps.foldl applyStep h

/-- States reachable from the freshly constructed handler. -/
def Reachable {δ ρ : Type} (h : ConfirmationHandler δ ρ) : Prop :=
  ∃ steps : List (Step δ ρ), runSteps initialHandler steps = h

/-- States reachable from the freshly constructed handler by a trace whose
clock readings are nondecreasing and at most `now` (the current time). -/
def ReachableAt {δ ρ : Type} (h : ConfirmationHandler δ ρ) (now : Nat) : Prop :=
  ∃ steps : List (Step δ ρ),
    List.Chain' (fun a b => stepTime a ≤ stepTime b) steps ∧
    (∀ s ∈ steps, stepTime s ≤ now) ∧
    runSteps initialHandler steps = h

/-! ### Lemmas about the dict primitives -/

theorem dictLookup_dictSet_self {α : Type} (l : List (String × α)) (k : String)
    (v : α) : dictLookup (dictSet l k v) k = some v := by
  induction l with
  | nil => simp [dictSet, dictLookup]
  | cons q rest ih =>
    by_cases hq : q.1 = k
    · simp [dictSet, hq, dictLookup]
    · simp [dictSet, hq, dictLookup, ih]

theorem dictLookup_dictSet_ne {α : Type} (l : List (String × α)) {k k' : String}
    (v : α) (hne : k ≠ k') : dictLookup (dictSet l k' v) k = dictLookup l k := by
  induction l with
  | nil => simp [dictSet, dictLookup, Ne.symm hne]
  | cons q rest ih =>
    by_cases hq : q.1 = k'
    · simp [dictSet, hq, dictLookup, Ne.symm hne]
    · by_cases hk : q.1 = k <;> simp [dictSet, hq, dictLookup, hk, ih, hne]

theorem dictDel_eq_filter {α : Type} (l : List (String × α)) (k : String) :
    dictDel l k = l.filter (fun q => decide (q.1 ≠ k)) := by
  induction l with
  | nil => rfl
  | cons q rest ih =>
    by_cases hq : q.1 = k <;> simp [dictDel, hq, List.filter, ih]

theorem dictLookup_filter_none {α : Type} (l : List (String × α))
    (f : String × α → Bool) (k : String) (hlk : dictLookup l k = none) :
    dictLookup (l.filter f) k = none := by
  induction l with
  | nil => rfl
  | cons q rest ih =>
    by_cases hq : q.1 = k
    · simp [dictLookup, hq] at hlk
    · simp only [dictLookup, hq, if_neg] at hlk
      by_cases hf : f q <;> simp [List.filter, hf, dictLookup, hq, ih hlk]

theorem dictLookup_dictDel_self {α : Type} (l : List (String × α)) (k : String) :
    dictLookup (dictDel l k) k = none := by
  induction l with
  | nil => rfl
  | cons q rest ih =>
    by_cases hq : q.1 = k <;> simp [dictDel, hq, dictLookup, ih]

theorem dictLookup_dictDel_none {α : Type} (l : List (String × α))
    (k k' : String) (hlk : dictLookup l k = none) :
    dictLookup (dictDel l k') k = none := by
  rw [dictDel_eq_filter]
  exact dictLookup_filter_none _ _ _ hlk

theorem mem_dictKeys_dictSet {α : Type} (l : List (String × α)) (k a : String)
    (v : α) : a ∈ dictKeys (dictSet l k v) ↔ a ∈ dictKeys l ∨ a = k := by
  induction l with
  | nil => simp [dictSet, dictKeys]
  | cons q rest ih =>
    by_cases hq : q.1 = k
    · subst hq
      simp [dictSet, dictKeys]
      tauto
    · simp only [dictSet, hq, if_neg, not_false_iff, dictKeys, List.map_cons,
        List.mem_cons] at *
      rw [ih]
      tauto

theorem nodup_dictKeys_dictSet {α : Type} (l : List (String × α)) (k : String)
    (v : α) (nd : (dictKeys l).Nodup) : (dictKeys (dictSet l k v)).Nodup := by
  induction l with
  | nil => simp [dictSet, dictKeys]
  | cons q rest ih =>
    rw [dictKeys, List.map_cons, List.nodup_cons] at nd
    by_cases hq : q.1 = k
    · simp only [dictSet, hq, if_pos]
      rw [dictKeys, List.map_cons, List.nodup_cons]
      exact ⟨hq ▸ nd.1, nd.2⟩
    · simp only [dictSet, hq, if_neg, not_false_iff]
      rw [dictKeys, List.map_cons, List.nodup_cons]
      refine ⟨fun hmem => ?_, ih nd.2⟩
      rcases (mem_dictKeys_dictSet rest k q.1 v).1 hmem with h | h
      · exact nd.1 h
      · exact hq h

theorem dictDel_sublist {α : Type} (l : List (String × α)) (k : String) :
    (dictDel l k).Sublist l := by
  rw [dictDel_eq_filter]
  exact List.filter_sublist l

theorem nodup_dictKeys_dictDel {α : Type} (l : List (String × α)) (k : String)
    (nd : (dictKeys l).Nodup) : (dictKeys (dictDel l k)).Nodup :=
  ((dictDel_sublist l k).map Prod.fst).nodup nd

theorem dictLookup_eq_none_iff {α : Type} (l : List (String × α)) (k : String) :
    dictLookup l k = none ↔ k ∉ dictKeys l := by
  induction l with
  | nil => simp [dictLookup, dictKeys]
  | cons q rest ih =>
    by_cases hq : q.1 = k <;>
      simp [dictLookup, hq, dictKeys, ih, List.mem_cons, eq_comm (a := k)]

/-- Two bindings of a unique-key list with equal keys are the same binding. -/
theorem key_unique {α : Type} {l : List (String × α)}
    (nd : (dictKeys l).Nodup) {x q : String × α} (hx : x ∈ l) (hq : q ∈ l)
    (he : x.1 = q.1) : x = q := by
  induction l with
  | nil => cases hx
  | cons a rest ih =>
    rw [dictKeys, List.map_cons, List.nodup_cons] at nd
    rcases List.mem_cons.1 hx with hx1 | hx1 <;>
      rcases List.mem_cons.1 hq with hq1 | hq1
    · rw [hx1, hq1]
    · exact absurd (he ▸ (List.mem_map_of_mem Prod.fst hq1)) (hx1 ▸ nd.1)
    · exact absurd (he ▸ (List.mem_map_of_mem Prod.fst hx1)) (hq1 ▸ nd.1)
    · exact ih nd.2 hx1 hq1

/-- A left fold of deletions is a single filter by key membership. -/
theorem foldl_dictDel_eq_filter {α : Type} (ks : List String) :
    ∀ l : List (String × α),
      ks.foldl (fun s cid => dictDel s cid) l =
        l.filter (fun q => decide (q.1 ∉ ks)) := by
  induction ks with
  | nil =>
    intro l
    rw [List.foldl_nil]
    symm
    refine (List.filter_congr (fun x _ => ?_)).trans (List.filter_true l)
    simp
  | cons k ks ih =>
    intro l
    rw [List.foldl_cons, ih, dictDel_eq_filter, List.filter_filter]
    refine List.filter_congr (fun x _ => ?_)
    by_cases h1 : x.1 = k <;> by_cases h2 : x.1 ∈ ks <;>
      simp [h1, h2, List.mem_cons]

/-! ### Lemmas about `handle_response` and `cleanup_expired` -/

theorem handle_response_of_lookup_none {δ ρ : Type}
    (h : ConfirmationHandler δ ρ) (now : Nat) (id : String) (c : Bool)
    (hlk : dictLookup h.pending_confirmations id = none) :
    handle_response h now id c = (.errorNotFound, h, []) := by
  unfold handle_response
  rw [hlk]

theorem handle_response_store_of_lookup_some {δ ρ : Type}
    {h : ConfirmationHandler δ ρ} {now : Nat} {id : String} {c : Bool}
    {conf : Entry δ ρ} (hlk : dictLookup h.pending_confirmations id = some conf) :
    (handle_response h now id c).2.1 =
      { h with pending_confirmations := dictDel h.pending_confirmations id } := by
  unfold handle_response
  rw [hlk]
  dsimp only
  repeat' split
  all_goals rfl

theorem handle_response_inv_length {δ ρ : Type}
    (h : ConfirmationHandler δ ρ) (now : Nat) (id : String) (c : Bool) :
    (handle_response h now id c).2.2.length ≤ 1 := by
  unfold handle_response
  rcases hlk : dictLookup h.pending_confirmations id with _ | conf
  · simp
  · dsimp only
    repeat' split
    all_goals simp

theorem cleanup_expired_store {δ ρ : Type} (h : ConfirmationHandler δ ρ)
    (now : Nat) :
    (cleanup_expired h now).1.pending_confirmations =
      h.pending_confirmations.filter (fun q =>
        decide (q.1 ∉ (h.pending_confirmations.filter
          (fun p => decide (now - p.2.timestamp > h.timeout_seconds))).map Prod.fst)) := by
  unfold cleanup_expired
  exact foldl_dictDel_eq_filter _ _

/-- On a unique-key store, `cleanup_expired` is exactly the filter that keeps
the entries whose age does not exceed the timeout. -/
theorem cleanup_expired_eq_filter {δ ρ : Type} (h : ConfirmationHandler δ ρ)
    (now : Nat) (nd : (dictKeys h.pending_confirmations).Nodup) :
    (cleanup_expired h now).1.pending_confirmations =
      h.pending_confirmations.filter
        (fun p => !decide (now - p.2.timestamp > h.timeout_seconds)) := by
  rw [cleanup_expired_store]
  refine List.filter_congr (fun q hq => ?_)
  by_cases hexp : now - q.2.timestamp > h.timeout_seconds
  · have hmem : q.1 ∈ (h.pending_confirmations.filter
        (fun p => decide (now - p.2.timestamp > h.timeout_seconds))).map Prod.fst :=
      List.mem_map_of_mem Prod.fst (List.mem_filter.2 ⟨hq, by simpa using hexp⟩)
    simp [hexp, hmem]
  · have hnm : q.1 ∉ (h.pending_confirmations.filter
        (fun p => decide (now - p.2.timestamp > h.timeout_seconds))).map Prod.fst := by
      intro hmem
      rcases List.mem_map.1 hmem with ⟨x, hxmem, hx1⟩
      rcases List.mem_filter.1 hxmem with ⟨hxl, hxp⟩
      have : x = q := key_unique nd hxl hq hx1
      rw [this] at hxp
      simp at hxp
      exact hexp hxp
    simp [hexp, hnm]

/-! ### Lemmas about the string primitives -/

theorem isPrefixOf_append_self (p l : List Char) :
    p.isPrefixOf (p ++ l) = true := by
  rw [List.isPrefixOf_iff_prefix]
  exact List.prefix_append _ _

theorem replaceAllAux_of_not_hasSubstr (pat : List Char) :
    ∀ (s : List Char) (fuel : Nat), s.length ≤ fuel →
      hasSubstr pat s = false → replaceAllAux pat fuel s = s := by
  intro s
  induction s with
  | nil =>
    intro fuel _ _
    cases fuel <;> rfl
  | cons c rest ih =>
    intro fuel hlen hsub
    rcases fuel with _ | f
    · simp at hlen
    · rw [hasSubstr, Bool.or_eq_false_iff] at hsub
      rw [replaceAllAux, if_neg (by simp [hsub.1])]
      rw [ih f (by simpa using hlen) hsub.2]

theorem replaceAllAux_strip_head (p : Char) (pt s : List Char) (f : Nat) :
    replaceAllAux (p :: pt) (f + 1) ((p :: pt) ++ s) =
      replaceAllAux (p :: pt) f s := by
  have hc : ((p :: pt).isPrefixOf (p :: (pt ++ s)) && !(p :: pt).isEmpty) = true := by
    rw [← List.cons_append, isPrefixOf_append_self]
    rfl
  rw [List.cons_append]
  simp only [replaceAllAux]
  rw [if_pos hc]
  congr 1
  simp only [List.length_cons, Nat.succ_sub_one]
  exact List.drop_left pt s

/-- Python `(pre + id).replace(pre, "")` gives back `id` whenever the
pattern does not occur inside `id`. -/
theorem replaceAll_strip (pat s : List Char) (hne : pat ≠ [])
    (hs : hasSubstr pat s = false) : replaceAll pat (pat ++ s) = s := by
  rcases pat with _ | ⟨p, pt⟩
  · exact absurd rfl hne
  · rw [replaceAll]
    have hlen : ((p :: pt) ++ s).length = (pt.length + s.length) + 1 := by
      simp [List.length_append]
    rw [hlen, replaceAllAux_strip_head]
    exact replaceAllAux_of_not_hasSubstr _ _ _ (by omega) hs

theorem extract_id_append (pre id : String) (hne : pre.toList ≠ [])
    (hs : hasSubstr pre.toList id.toList = false) :
    extract_id (pre ++ id) pre = id := by
  obtain ⟨lp⟩ := pre
  obtain ⟨l⟩ := id
  show (⟨replaceAll lp (lp ++ l)⟩ : String) = ⟨l⟩
  rw [replaceAll_strip lp l hne hs]

theorem startsWithS_append_self (pre id : String) :
    startsWithS (pre ++ id) pre = true := by
  obtain ⟨lp⟩ := pre
  obtain ⟨l⟩ := id
  exact isPrefixOf_append_self lp l

/-! ### Lemmas about the steps and reachability -/

theorem handle_response_timeout {δ ρ : Type} (h : ConfirmationHandler δ ρ)
    (now : Nat) (id : String) (c : Bool) :
    (handle_response h now id c).2.1.timeout_seconds = h.timeout_seconds := by
  rcases hlk : dictLookup h.pending_confirmations id with _ | conf
  · rw [handle_response_of_lookup_none h now id c hlk]
  · rw [handle_response_store_of_lookup_some hlk]

theorem nodup_dictKeys_applyStep {δ ρ : Type} (h : ConfirmationHandler δ ρ)
    (s : Step δ ρ) (nd : (dictKeys h.pending_confirmations).Nodup) :
    (dictKeys (applyStep h s).pending_confirmations).Nodup := by
  cases s with
  | create id now msg d oc ocan =>
    exact nodup_dictKeys_dictSet _ _ _ nd
  | respond id now c =>
    rcases hlk : dictLookup h.pending_confirmations id with _ | conf
    · rw [applyStep, handle_response_of_lookup_none h now id c hlk]
      exact nd
    · rw [applyStep, handle_response_store_of_lookup_some hlk]
      exact nodup_dictKeys_dictDel _ _ nd
  | cleanup now =>
    rw [applyStep, cleanup_expired_store]
    exact ((List.filter_sublist _).map Prod.fst).nodup nd

theorem nodup_dictKeys_runSteps {δ ρ : Type} (h : ConfirmationHandler δ ρ)
    (steps : List (Step δ ρ)) (nd : (dictKeys h.pending_confirmations).Nodup) :
    (dictKeys (runSteps h steps).pending_confirmations).Nodup := by
  induction steps generalizing h with
  | nil => exact nd
  | cons s rest ih =>
    rw [runSteps, List.foldl_cons]
    exact ih _ (nodup_dictKeys_applyStep h s nd)

theorem dictLookup_none_applyStep {δ ρ : Type} (h : ConfirmationHandler δ ρ)
    (s : Step δ ρ) (id : String)
    (hlk : dictLookup h.pending_confirmations id = none)
    (hnc : isCreateOf s id = false) :
    dictLookup (applyStep h s).pending_confirmations id = none := by
  cases s with
  | create cid now msg d oc ocan =>
    rw [isCreateOf, decide_eq_false_iff_not] at hnc
    rw [applyStep, create_confirmation]
    exact (dictLookup_dictSet_ne _ _ (fun he => hnc he.symm)).trans hlk
  | respond rid now c =>
    rcases hlk2 : dictLookup h.pending_confirmations rid with _ | conf
    · rw [applyStep, handle_response_of_lookup_none h now rid c hlk2]
      exact hlk
    · rw [applyStep, handle_response_store_of_lookup_some hlk2]
      exact dictLookup_dictDel_none _ _ _ hlk
  | cleanup now =>
    rw [applyStep, cleanup_expired_store]
    exact dictLookup_filter_none _ _ _ hlk

theorem dictLookup_none_runSteps {δ ρ : Type} (h : ConfirmationHandler δ ρ)
    (steps : List (Step δ ρ)) (id : String)
    (hlk : dictLookup h.pending_confirmations id = none)
    (hnc : ∀ s ∈ steps, isCreateOf s id = false) :
    dictLookup (runSteps h steps).pending_confirmations id = none := by
  induction steps generalizing h with
  | nil => exact hlk
  | cons s rest ih =>
    rw [runSteps, List.foldl_cons]
    exact ih _ (dictLookup_none_applyStep h s id hlk
      (hnc s (List.mem_cons_self s rest))) (fun t ht => hnc t (List.mem_cons_of_mem s ht))

/-! ### Dispatch lemmas for `_handle_update` -/

theorem dispatch_confirm {δ ρ : Type} (st : ConfirmationHandler δ ρ) (now : Nat)
    (id : String) (hs : hasSubstr "confirm_".toList id.toList = false) :
    dispatch_callback_data st now ("confirm_" ++ id) =
      ((handle_response st now id true).2.1, [(id, true)],
       (handle_response st now id true).2.2) := by
  unfold dispatch_callback_data
  rw [startsWithS_append_self, if_pos rfl]
  dsimp only
  rw [extract_id_append "confirm_" id (by decide) hs]

theorem cancel_not_confirm (id : String) :
    startsWithS ("cancel_" ++ id) "confirm_" = false := by
  obtain ⟨l⟩ := id
  rfl

theorem dispatch_cancel {δ ρ : Type} (st : ConfirmationHandler δ ρ) (now : Nat)
    (id : String) (hs : hasSubstr "cancel_".toList id.toList = false) :
    dispatch_callback_data st now ("cancel_" ++ id) =
      ((handle_response st now id false).2.1, [(id, false)],
       (handle_response st now id false).2.2) := by
  unfold dispatch_callback_data
  rw [cancel_not_confirm, if_neg (by simp)]
  rw [startsWithS_append_self, if_pos rfl]
  dsimp only
  rw [extract_id_append "cancel_" id (by decide) hs]

theorem dispatch_unrecognized {δ ρ : Type} (st : ConfirmationHandler δ ρ)
    (now : Nat) (s : String) (h1 : startsWithS s "confirm_" = false)
    (h2 : startsWithS s "cancel_" = false) :
    dispatch_callback_data st now s = (st, [], []) := by
  unfold dispatch_callback_data
  rw [h1, if_neg (by simp), h2, if_neg (by simp)]

theorem handle_update_ok_of_not_fails {δ ρ : Type}
    (st : ConfirmationHandler δ ρ) (now : Nat) (u : Update)
    (hok : update_fails u = false) :
    ∃ v, handle_update st now u = .ok v := by
  rcases u with ⟨uid, cq⟩
  rcases cq with _ | cqf
  · exact ⟨_, rfl⟩
  rcases cqf with _ | d
  · simp [update_fails] at hok
  rcases d with _ | _ | s
  · exact ⟨_, rfl⟩
  · simp [update_fails] at hok
  · exact ⟨_, rfl⟩

/-! ### Concrete fixtures used by witnesses and counterexamples -/

/-- A pending entry created at time 0 with succeeding callbacks. -/
def entryOk : Entry Nat Nat :=
  { message := "m", data := 7, on_confirm := some (fun d => Except.ok d),
    on_cancel := some (fun d => Except.ok (d + 1)), timestamp := 0 }

/-- A handler holding `entryOk` under id `"a"`. -/
def chOk : ConfirmationHandler Nat Nat :=
  { pending_confirmations := [("a", entryOk)], timeout_seconds := 300 }

/-- A pending entry whose callbacks raise (`Except.error "boom"`). -/
def entryBoom : Entry Nat Nat :=
  { message := "m", data := 7, on_confirm := some (fun _ => Except.error "boom"),
    on_cancel := some (fun _ => Except.error "boom"), timestamp := 0 }

/-- A handler holding `entryBoom` under id `"b"`. -/
def chBoom : ConfirmationHandler Nat Nat :=
  { pending_confirmations := [("b", entryBoom)], timeout_seconds := 300 }

/-- A handler with one entry from time 0 and one from time 350. -/
def chTwo : ConfirmationHandler Nat Nat :=
  { pending_confirmations :=
      [("a", { message := "m", data := 1, on_confirm := none, on_cancel := none,
               timestamp := 0 }),
       ("b", { message := "m", data := 2, on_confirm := none, on_cancel := none,
               timestamp := 350 })],
    timeout_seconds := 300 }

/-- A handler already holding an entry under id `"a"`. -/
def chPre : ConfirmationHandler Nat Nat :=
  { pending_confirmations :=
      [("a", { message := "old", data := 1, on_confirm := none, on_cancel := none,
               timestamp := 0 })],
    timeout_seconds := 300 }

/-- The state after a single `create_confirmation` at time 0. -/
def chReach : ConfirmationHandler Nat Nat :=
  (create_confirmation initialHandler "a" 0 "m" 7 none none).1

/-! ### Claim theorems -/

/-- Claim C1: at most one `handle_response` call on an id consumes the entry
and invokes a resume callback; any call on an id absent from the store (in
particular any call after the consuming one) returns
`{"error": "Confirmación no encontrada o expirada"}`, leaves the store
unchanged, and invokes no callback.  A call that finds the id removes it
from the store and invokes at most one callback. -/
theorem C1_single_resolution {δ ρ : Type} (h : ConfirmationHandler δ ρ)
    (now : Nat) (id : String) (c : Bool) :
    (dictLookup h.pending_confirmations id = none →
      handle_response h now id c = (.errorNotFound, h, []) ∧
      (handle_response h now id c).1.errorMsg =
        some "Confirmación no encontrada o expirada") ∧
    (∀ conf : Entry δ ρ, dictLookup h.pending_confirmations id = some conf →
      dictLookup (handle_response h now id c).2.1.pending_confirmations id = none ∧
      (handle_response h now id c).2.2.length ≤ 1) := by
  constructor
  · intro hlk
    rw [handle_response_of_lookup_none h now id c hlk]
    exact ⟨rfl, rfl⟩
  · intro conf hlk
    refine ⟨?_, handle_response_inv_length h now id c⟩
    rw [handle_response_store_of_lookup_some hlk]
    exact dictLookup_dictDel_self _ _

/-- Witness for C1 at concrete inputs: a response on the empty store returns
the not-found error unchanged, and a response that consumes `"a"` leaves the
store without `"a"`. -/
theorem C1_single_resolution_witness :
    (handle_response (δ := Nat) (ρ := Nat) initialHandler 0 "a" true =
      (.errorNotFound, initialHandler, []) ∧
     (handle_response (δ := Nat) (ρ := Nat) initialHandler 0 "a" true).1.errorMsg =
      some "Confirmación no encontrada o expirada") ∧
    (dictLookup (handle_response chOk 0 "a" true).2.1.pending_confirmations "a" = none ∧
     (handle_response chOk 0 "a" true).2.2.length ≤ 1) :=
  ⟨(C1_single_resolution initialHandler 0 "a" true).1 rfl,
   (C1_single_resolution chOk 0 "a" true).2 entryOk rfl⟩

/-- Counterexample to claim C3 as stated: the entry of `chOk` is created at
T = 0 with timeout W = 300, and a `handle_response` at time exactly
T + W = 300 — a time ≥ T + W — resolves successfully and invokes the resume
callback, instead of returning the not-found/expired error (the code tests
`now - timestamp > timeout`, a strict inequality). -/
theorem C3_boundary_counterexample :
    handle_response chOk 300 "a" true =
      (.success 7, { pending_confirmations := [], timeout_seconds := 300 },
       [.confirm]) ∧
    HResult.success (7 : Nat) ≠ .errorExpired ∧
    HResult.success (7 : Nat) ≠ .errorNotFound :=
  ⟨rfl, fun hh => HResult.noConfusion hh, fun hh => HResult.noConfusion hh⟩

/-- Claim C3 (amended): for an entry present with timestamp T and timeout W,
`handle_response` at any time strictly greater than T + W returns the
expired error `{"error": "Confirmación expirada"}` with no callback invoked
(and the entry removed), and at any time ≤ T + W it does not return the
expired or not-found error (the entry is still resolvable). -/
theorem C3_expiry_boundary {δ ρ : Type} (h : ConfirmationHandler δ ρ)
    (id : String) (conf : Entry δ ρ) (c : Bool)
    (hlk : dictLookup h.pending_confirmations id = some conf) :
    (∀ now : Nat, conf.timestamp + h.timeout_seconds < now →
      handle_response h now id c =
        (.errorExpired,
         { h with pending_confirmations := dictDel h.pending_confirmations id },
         [])) ∧
    (∀ now : Nat, now ≤ conf.timestamp + h.timeout_seconds →
      (handle_response h now id c).1 ≠ .errorExpired ∧
      (handle_response h now id c).1 ≠ .errorNotFound) := by
  constructor
  · intro now hgt
    have hexp : now - conf.timestamp > h.timeout_seconds := by omega
    unfold handle_response
    rw [hlk]
    dsimp only
    rw [if_pos hexp]
  · intro now hle
    have hlive : ¬(now - conf.timestamp > h.timeout_seconds) := by omega
    unfold handle_response
    rw [hlk]
    dsimp only
    rw [if_neg hlive]
    repeat' split
    all_goals
      exact ⟨fun hh => HResult.noConfusion hh, fun hh => HResult.noConfusion hh⟩

/-- Witness for C3 (amended) at concrete inputs: at time 301 > 0 + 300 the
entry of `chOk` is expired; at time 300 it is not. -/
theorem C3_expiry_boundary_witness :
    handle_response chOk 301 "a" true =
      (.errorExpired, { pending_confirmations := [], timeout_seconds := 300 },
       []) ∧
    (handle_response chOk 300 "a" true).1 ≠ .errorExpired :=
  ⟨(C3_expiry_boundary chOk "a" entryOk true rfl).1 301 (by decide),
   ((C3_expiry_boundary chOk "a" entryOk true rfl).2 300 (by decide)).1⟩

/-- Claim C4: when the invoked resume callback raises, `handle_response`
returns `{"error": str(e)}` as a value (no exception escapes — the embedding
of `handle_response` is a total function), the entry is still consumed, and
a retry on the same id returns the not-found error. -/
theorem C4_callback_failure {δ ρ : Type} (h : ConfirmationHandler δ ρ)
    (now : Nat) (id : String) (conf : Entry δ ρ)
    (f : δ → Except String ρ) (msg : String)
    (hlk : dictLookup h.pending_confirmations id = some conf)
    (hlive : ¬(now - conf.timestamp > h.timeout_seconds)) :
    (conf.on_confirm = some f → f conf.data = .error msg →
      handle_response h now id true =
        (.errorCallback msg,
         { h with pending_confirmations := dictDel h.pending_confirmations id },
         [.confirm]) ∧
      (∀ (now' : Nat) (c' : Bool),
        handle_response (handle_response h now id true).2.1 now' id c' =
          (.errorNotFound, (handle_response h now id true).2.1, []))) ∧
    (conf.on_cancel = some f → f conf.data = .error msg →
      handle_response h now id false =
        (.errorCallback msg,
         { h with pending_confirmations := dictDel h.pending_confirmations id },
         [.cancel]) ∧
      (∀ (now' : Nat) (c' : Bool),
        handle_response (handle_response h now id false).2.1 now' id c' =
          (.errorNotFound, (handle_response h now id false).2.1, []))) ∧
    (HResult.errorCallback (ρ := ρ) msg).errorMsg = some msg := by
  refine ⟨fun hoc herr => ?_, fun hoc herr => ?_, rfl⟩
  · have h1 : handle_response h now id true =
        (.errorCallback msg,
         { h with pending_confirmations := dictDel h.pending_confirmations id },
         [.confirm]) := by
      unfold handle_response
      rw [hlk]
      dsimp only
      rw [if_neg hlive, if_pos rfl, hoc]
      dsimp only
      rw [herr]
    have h2 : dictLookup (handle_response h now id true).2.1.pending_confirmations
        id = none := by
      rw [h1]
      exact dictLookup_dictDel_self _ _
    exact ⟨h1, fun now' c' => handle_response_of_lookup_none _ now' id c' h2⟩
  · have h1 : handle_response h now id false =
        (.errorCallback msg,
         { h with pending_confirmations := dictDel h.pending_confirmations id },
         [.cancel]) := by
      unfold handle_response
      rw [hlk]
      dsimp only
      rw [if_neg hlive, if_neg (by simp), hoc]
      dsimp only
      rw [herr]
    have h2 : dictLookup (handle_response h now id false).2.1.pending_confirmations
        id = none := by
      rw [h1]
      exact dictLookup_dictDel_self _ _
    exact ⟨h1, fun now' c' => handle_response_of_lookup_none _ now' id c' h2⟩

/-- Witness for C4 at concrete inputs: the raising callbacks of `chBoom`. -/
theorem C4_callback_failure_witness :
    handle_response chBoom 10 "b" true =
      (.errorCallback "boom",
       { pending_confirmations := [], timeout_seconds := 300 }, [.confirm]) ∧
    handle_response chBoom 10 "b" false =
      (.errorCallback "boom",
       { pending_confirmations := [], timeout_seconds := 300 }, [.cancel]) :=
  ⟨((C4_callback_failure chBoom 10 "b" entryBoom (fun _ => Except.error "boom")
      "boom" rfl (by decide)).1 rfl rfl).1,
   ((C4_callback_failure chBoom 10 "b" entryBoom (fun _ => Except.error "boom")
      "boom" rfl (by decide)).2.1 rfl rfl).1⟩

/-- Counterexample to claim C6 as stated: inserting under an id already
present in the store does not fail with a duplicate-id error — it silently
replaces the pre-existing entry.  `chPre` holds `"a"` with payload 1; a
`create_confirmation` under the same id returns the id as usual and the
store afterwards holds only the new entry with payload 2. -/
theorem C6_counterexample :
    (create_confirmation chPre "a" 5 "new" 2 none none).1.pending_confirmations =
      [("a", { message := "new", data := 2, on_confirm := none,
               on_cancel := none, timestamp := 5 })] ∧
    (create_confirmation chPre "a" 5 "new" 2 none none).2 = "a" ∧
    (2 : Nat) ≠ 1 :=
  ⟨rfl, rfl, by decide⟩

/-- Claim C6 (amended): `create_confirmation` performs no duplicate-id check;
it always succeeds, returns the id, and maps the id to the new entry in the
store, silently overwriting any pre-existing entry under that id. -/
theorem C6_insert_overwrites {δ ρ : Type} (h : ConfirmationHandler δ ρ)
    (id : String) (now : Nat) (msg : String) (d : δ)
    (oc ocan : Option (δ → Except String ρ)) :
    (create_confirmation h id now msg d oc ocan).2 = id ∧
    dictLookup (create_confirmation h id now msg d oc ocan).1.pending_confirmations
        id =
      some { message := msg, data := d, on_confirm := oc, on_cancel := ocan,
             timestamp := now } :=
  ⟨rfl, dictLookup_dictSet_self _ _ _⟩

/-- Claim C7: on a unique-key store, `cleanup_expired` keeps exactly the
entries whose age does not strictly exceed the timeout (removing exactly
those whose age exceeds it), unchanged and in order; it invokes no resume
callback; and the timeout defaults to 300 seconds. -/
theorem C7_sweep {δ ρ : Type} (h : ConfirmationHandler δ ρ) (now : Nat)
    (nd : (dictKeys h.pending_confirmations).Nodup) :
    (cleanup_expired h now).1.pending_confirmations =
      h.pending_confirmations.filter
        (fun p => !decide (now - p.2.timestamp > h.timeout_seconds)) ∧
    (cleanup_expired h now).2 = [] ∧
    (initialHandler (δ := δ) (ρ := ρ)).timeout_seconds = 300 :=
  ⟨cleanup_expired_eq_filter h now nd, rfl, rfl⟩

/-- Witness for C7 at a concrete store: sweeping `chTwo` at time 400 keeps
exactly the non-expired entry. -/
theorem C7_sweep_witness :
    (cleanup_expired chTwo 400).1.pending_confirmations =
      chTwo.pending_confirmations.filter
        (fun p => !decide (400 - p.2.timestamp > chTwo.timeout_seconds)) ∧
    (cleanup_expired chTwo 400).2 = [] :=
  ⟨(C7_sweep chTwo 400 (by decide)).1, (C7_sweep chTwo 400 (by decide)).2.1⟩

/-- Claim C9: `start_polling` on an already-running server is a no-op (state
unchanged, no thread started), and `stop_polling` is idempotent and leaves
the server stopped from any state. -/
theorem C9_start_stop (s : TelegramBotServer) :
    (s.running = true → start_polling s = (s, false)) ∧
    (stop_polling s).running = false ∧
    stop_polling (stop_polling s) = stop_polling s := by
  refine ⟨fun hr => ?_, rfl, rfl⟩
  rw [start_polling, if_pos hr]

/-- Witness for C9 at a concrete running server. -/
theorem C9_start_stop_witness :
    start_polling { last_update_id := 3, running := true } =
      ({ last_update_id := 3, running := true }, false) :=
  (C9_start_stop { last_update_id := 3, running := true }).1 rfl

/-- Claim C10: a `handle_response` on an id whose entry is present but older
than the timeout returns `{"error": "Confirmación expirada"}`, yet has
already removed the entry (the pop precedes the age check) and invokes no
callback; the error branch therefore mutates the store, and any retry on
the same id returns the not-found error, while a sweep invokes no callback
either — the id can never be resolved afterwards. -/
theorem C10_expired_pop {δ ρ : Type} (h : ConfirmationHandler δ ρ) (now : Nat)
    (id : String) (conf : Entry δ ρ) (c : Bool)
    (hlk : dictLookup h.pending_confirmations id = some conf)
    (hexp : now - conf.timestamp > h.timeout_seconds) :
    handle_response h now id c =
      (.errorExpired,
       { h with pending_confirmations := dictDel h.pending_confirmations id },
       []) ∧
    dictLookup (handle_response h now id c).2.1.pending_confirmations id = none ∧
    (∀ (now' : Nat) (c' : Bool),
      handle_response (handle_response h now id c).2.1 now' id c' =
        (.errorNotFound, (handle_response h now id c).2.1, [])) ∧
    (∀ t : Nat, (cleanup_expired (handle_response h now id c).2.1 t).2 = []) ∧
    (HResult.errorExpired (ρ := ρ)).errorMsg = some "Confirmación expirada" := by
  have h1 : handle_response h now id c =
      (.errorExpired,
       { h with pending_confirmations := dictDel h.pending_confirmations id },
       []) := by
    unfold handle_response
    rw [hlk]
    dsimp only
    rw [if_pos hexp]
  have h2 : dictLookup (handle_response h now id c).2.1.pending_confirmations
      id = none := by
    rw [h1]
    exact dictLookup_dictDel_self _ _
  exact ⟨h1, h2,
    fun now' c' => handle_response_of_lookup_none _ now' id c' h2,
    fun t => rfl, rfl⟩

/-- Witness for C10 at a concrete expired entry: the entry of `chOk`
(timestamp 0) responded to at time 301. -/
theorem C10_expired_pop_witness :
    handle_response chOk 301 "a" false =
      (.errorExpired, { pending_confirmations := [], timeout_seconds := 300 },
       []) ∧
    handle_response (handle_response chOk 301 "a" false).2.1 302 "a" true =
      (.errorNotFound, (handle_response chOk 301 "a" false).2.1, []) :=
  ⟨(C10_expired_pop chOk 301 "a" entryOk false rfl (by decide)).1,
   (C10_expired_pop chOk 301 "a" entryOk false rfl (by decide)).2.2.1 302 true⟩

/-- Counterexample to claim C2 as stated: the dispatcher's recognized
prefixes are `"confirm_"` and `"cancel_"`, not `"approve_"` and
`"reject_"`.  Dispatching callback data `"approve_a"` against a store that
holds the id `"a"` produces no `handle_response` call and no store mutation,
whereas the claim requires the call list `[("a", true)]`. -/
theorem C2_counterexample :
    handle_update chOk 0
        { update_id := some 1,
          callback_query := some (.dict (.val "approve_a")) } =
      .ok (chOk, [], []) ∧
    ([] : List (String × Bool)) ≠ [("a", true)] :=
  ⟨rfl, by decide⟩

/-- Claim C2 (amended): the dispatcher routes `"confirm_" + id` to
`handle_response(id, True)` and `"cancel_" + id` to
`handle_response(id, False)` (for any id not containing the prefix as a
substring — extraction uses Python's replace-all); callback data with
neither recognized prefix produces no `handle_response` call and no store
mutation; and the two inline-keyboard buttons attached to an outbound
confirmation message carry exactly `"confirm_" + id` and `"cancel_" + id`,
matching the dispatcher's prefixes. -/
theorem C2_dispatch {δ ρ : Type} (st : ConfirmationHandler δ ρ) (now : Nat)
    (uid : Option Nat) (id : String) :
    (hasSubstr "confirm_".toList id.toList = false →
      handle_update st now
          { update_id := uid,
            callback_query := some (.dict (.val ("confirm_" ++ id))) } =
        .ok ((handle_response st now id true).2.1, [(id, true)],
             (handle_response st now id true).2.2)) ∧
    (hasSubstr "cancel_".toList id.toList = false →
      handle_update st now
          { update_id := uid,
            callback_query := some (.dict (.val ("cancel_" ++ id))) } =
        .ok ((handle_response st now id false).2.1, [(id, false)],
             (handle_response st now id false).2.2)) ∧
    (∀ s : String, startsWithS s "confirm_" = false →
      startsWithS s "cancel_" = false →
      handle_update st now
          { update_id := uid, callback_query := some (.dict (.val s)) } =
        .ok (st, [], [])) ∧
    send_confirmation_message_keyboard id =
      [("✅ Sí, corregir", "confirm_" ++ id),
       ("❌ No, dejar así", "cancel_" ++ id)] := by
  refine ⟨fun hs => ?_, fun hs => ?_, fun s h1 h2 => ?_, rfl⟩
  · show Except.ok (dispatch_callback_data st now ("confirm_" ++ id)) = _
    rw [dispatch_confirm st now id hs]
  · show Except.ok (dispatch_callback_data st now ("cancel_" ++ id)) = _
    rw [dispatch_cancel st now id hs]
  · show Except.ok (dispatch_callback_data st now s) = _
    rw [dispatch_unrecognized st now s h1 h2]

/-- Witness for C2 (amended) at concrete inputs: dispatching
`"confirm_a"` against `chOk` resolves `"a"`, and unrecognized data `"xyz"`
is ignored. -/
theorem C2_dispatch_witness :
    handle_update chOk 0
        { update_id := some 1,
          callback_query := some (.dict (.val ("confirm_" ++ "a"))) } =
      .ok ((handle_response chOk 0 "a" true).2.1, [("a", true)],
           (handle_response chOk 0 "a" true).2.2) ∧
    handle_update chOk 0
        { update_id := some 1, callback_query := some (.dict (.val "xyz")) } =
      .ok (chOk, [], []) :=
  ⟨(C2_dispatch chOk 0 (some 1) "a").1 (by decide),
   (C2_dispatch chOk 0 (some 1) "a").2.2.1 "xyz" rfl rfl⟩

/-- Counterexample to claim C5 as stated: an entry can remain in the store
past its timeout.  The state `chReach` is reachable at time 1000 (its only
step runs at time 0), yet it still holds id `"a"` with timestamp 0, whose
age 1000 exceeds the 300-second timeout — so "an id present in the store
has not expired" is false of the code. -/
theorem C5_counterexample :
    ¬ (∀ (h : ConfirmationHandler Nat Nat) (now : Nat), ReachableAt h now →
        (dictKeys h.pending_confirmations).Nodup ∧
        ∀ (id : String) (conf : Entry Nat Nat),
          dictLookup h.pending_confirmations id = some conf →
          now - conf.timestamp ≤ h.timeout_seconds) := by
  intro H
  have hreach : ReachableAt chReach 1000 := by
    refine ⟨[Step.create "a" 0 "m" 7 none none], List.chain'_singleton _,
      fun s hs => ?_, rfl⟩
    rcases List.mem_singleton.1 hs with rfl
    exact Nat.zero_le 1000
  have h2 := (H chReach 1000 hreach).2 "a"
    { message := "m", data := 7, on_confirm := none, on_cancel := none,
      timestamp := 0 } rfl
  exact absurd h2 (by decide)

/-- Claim C5 (amended): every reachable store state has pairwise-distinct
ids (a Python dict cannot hold two entries under one key, and the three
operations preserve key uniqueness), and a resolved (consumed) id stays
absent under any further steps that do not create that id again — but an
id present in the store may be expired: its age can exceed the timeout
until a response or sweep removes it. -/
theorem C5_store_invariant {δ ρ : Type} :
    (∀ h : ConfirmationHandler δ ρ, Reachable h →
      (dictKeys h.pending_confirmations).Nodup) ∧
    (∀ (h : ConfirmationHandler δ ρ) (id : String) (steps : List (Step δ ρ)),
      dictLookup h.pending_confirmations id = none →
      (∀ s ∈ steps, isCreateOf s id = false) →
      dictLookup (runSteps h steps).pending_confirmations id = none) := by
  constructor
  · rintro h ⟨steps, rfl⟩
    exact nodup_dictKeys_runSteps initialHandler steps (by simp [initialHandler, dictKeys])
  · exact fun h id steps => dictLookup_none_runSteps h steps id

/-- Witness for C5 (amended) at concrete inputs: the reachable state
`chReach` has distinct keys, and an absent id stays absent under a sweep. -/
theorem C5_store_invariant_witness :
    (dictKeys chReach.pending_confirmations).Nodup ∧
    dictLookup (runSteps (initialHandler (δ := Nat) (ρ := Nat))
        [Step.cleanup 5]).pending_confirmations "a" = none :=
  ⟨C5_store_invariant.1 chReach ⟨[Step.create "a" 0 "m" 7 none none], rfl⟩,
   C5_store_invariant.2 initialHandler "a" [Step.cleanup 5] rfl
     (fun s hs => by rcases List.mem_singleton.1 hs with rfl; rfl)⟩

/-- Counterexample to claim C8 as stated: an event whose handling raises
does not have the cursor advanced past it.  A batch holding a single update
with sequence number 5 whose `callback_query` is not a dict makes
`_handle_update` raise `AttributeError` before the cursor-advance line; the
exception is caught by `_poll_once`'s `try/except` and the cursor stays 0
instead of advancing to 5 as the claim requires. -/
theorem C8_counterexample :
    process_updates 0 (initialHandler (δ := Nat) (ρ := Nat)) 0 [] []
        [{ update_id := some 5, callback_query := some .notADict }] =
      (initialHandler, 0, [], []) ∧
    (0 : Nat) ≠ 5 :=
  ⟨rfl, by decide⟩

/-- Claim C8 (amended): the poller processes the batch in order, advancing
the cursor to each event's `update_id` only after that event is handled
without an exception; an event whose handling raises — or whose
`update_id` is missing — aborts the rest of the batch with the cursor not
advanced past that event (state changes made before the raise are kept);
when every event is handled without exception and carries an `update_id`,
the cursor ends at the last event's sequence number. -/
theorem C8_cursor {δ ρ : Type} :
    (∀ (st : ConfirmationHandler δ ρ) (now cur : Nat)
       (calls : List (String × Bool)) (invs : List CBKind)
       (u : Update) (rest : List Update) (e : String),
      handle_update st now u = .error e →
      process_updates now st cur calls invs (u :: rest) =
        (st, cur, calls, invs)) ∧
    (∀ (st : ConfirmationHandler δ ρ) (now cur : Nat)
       (calls : List (String × Bool)) (invs : List CBKind)
       (u : Update) (rest : List Update)
       (st' : ConfirmationHandler δ ρ) (cs : List (String × Bool))
       (is : List CBKind),
      handle_update st now u = .ok (st', cs, is) → u.update_id = none →
      process_updates now st cur calls invs (u :: rest) =
        (st', cur, calls ++ cs, invs ++ is)) ∧
    (∀ (now : Nat) (us : List Update) (u : Update) (uid : Nat)
       (st : ConfirmationHandler δ ρ) (cur : Nat)
       (calls : List (String × Bool)) (invs : List CBKind),
      (∀ v ∈ us ++ [u], update_fails v = false ∧ v.update_id.isSome) →
      u.update_id = some uid →
      (process_updates now st cur calls invs (us ++ [u])).2.1 = uid) := by
  refine ⟨?_, ?_, ?_⟩
  · intro st now cur calls invs u rest e herr
    simp only [process_updates, herr]
  · intro st now cur calls invs u rest st' cs is hok hnone
    simp only [process_updates, hok, hnone]
  · intro now us
    induction us with
    | nil =>
      intro u uid st cur calls invs hall huid
      obtain ⟨⟨st', cs, is⟩, hok⟩ := handle_update_ok_of_not_fails st now u
        (hall u (by simp)).1
      simp only [List.nil_append, process_updates, hok, huid]
    | cons v vs ih =>
      intro u uid st cur calls invs hall huid
      have hv := hall v (by simp)
      obtain ⟨v0, hv0⟩ := Option.isSome_iff_exists.1 hv.2
      obtain ⟨⟨st', cs, is⟩, hok⟩ := handle_update_ok_of_not_fails st now v hv.1
      rw [List.cons_append]
      simp only [process_updates, hok, hv0]
      exact ih u uid st' v0 (calls ++ cs) (invs ++ is)
        (fun w hw => hall w (List.mem_cons_of_mem v hw)) huid

/-- Witness for C8 (amended) at concrete inputs: a raising update leaves
the batch aborted with the cursor unchanged, and a clean single-event
batch ends with the cursor at its sequence number 7. -/
theorem C8_cursor_witness :
    process_updates 0 (initialHandler (δ := Nat) (ρ := Nat)) 0 [] []
        [{ update_id := some 5, callback_query := some .notADict }] =
      (initialHandler, 0, [], []) ∧
    (process_updates 0 (initialHandler (δ := Nat) (ρ := Nat)) 0 [] []
        ([] ++ [{ update_id := some 7, callback_query := none }])).2.1 = 7 :=
  ⟨C8_cursor.1 initialHandler 0 0 [] []
      { update_id := some 5, callback_query := some .notADict } []
      "AttributeError" rfl,
   C8_cursor.2.2 0 [] { update_id := some 7, callback_query := none } 7
      initialHandler 0 [] []
      (fun v hv => by rcases List.mem_singleton.1 hv with rfl; exact ⟨rfl, rfl⟩)
      rfl⟩

end EmailAgent
